import Mathlib

/-!
# Verification of the SNOW LIWA booking / payment-reconciliation core

Shallow embedding of the booking store, the Ziina payment-gateway client
wrapper, the reconciliation engine and the admin status override from
`snow_liwa/app.py` and `snow_liwa/dashboard.py`.

Conventions of the embedding:
* a pandas `DataFrame` of bookings is a `List Booking` (row order = frame order);
* machine side effects (HTTP fetches, the Excel file) are passed explicitly:
  the Ziina `GET /payment_intent/{id}` endpoint is a function
  `fetch : String → Option (Option String)` where the outer `Option` is
  "did the call return a (truthy) JSON body" and the inner `Option` is
  `body.get("status")`;
* operations that may call `save_bookings` return the record list together
  with a `Bool` that is `true` exactly when `save_bookings` was called;
* Python `str` values are Lean `String`s; a possibly-missing cell
  (`None`/`NaN`) is an `Option String`.
-/

namespace SnowLiwa

/-- Constant `TICKET_PRICE = 175  # AED per ticket` (app.py). -/
def TICKET_PRICE : Nat := 175

/-- Constant `ZIINA_ACCESS_TOKEN = "FAKE_ACCESS_TOKEN"` (app.py). -/
def ZIINA_ACCESS_TOKEN : String := "FAKE_ACCESS_TOKEN"

/-- Predicate `has_ziina_configured` (app.py): token nonempty and not the placeholder. -/
def has_ziina_configured : Bool :=
  ZIINA_ACCESS_TOKEN ≠ "" && ZIINA_ACCESS_TOKEN ≠ "PUT_YOUR_ZIINA_ACCESS_TOKEN_IN_SECRETS"

/-- The fixed column set `ensure_data_file` writes into a fresh store (app.py). -/
def BOOKING_COLUMNS : List String :=
  ["booking_id", "created_at", "name", "phone", "tickets", "ticket_price",
   "total_amount", "status", "payment_intent_id", "payment_status",
   "redirect_url", "notes"]

/-- One row of the bookings table (app.py `new_row` dictionary).
`tickets`, `ticket_price` and `total_amount` are integral in the source
(`int(tickets)`, `TICKET_PRICE`, `tickets * TICKET_PRICE`), modelled as `Nat`.
`payment_status` can be overwritten with a missing provider status
(`pi.get("status")` may be `None`), hence `Option String`. -/
structure Booking where
  booking_id : String
  created_at : String
  name : String
  phone : String
  tickets : Nat
  ticket_price : Nat
  total_amount : Nat
  status : String
  payment_intent_id : String
  payment_status : Option String
  redirect_url : String
  notes : String
deriving Repr, DecidableEq

/-! ## Python string primitives used by the booking-id generator -/

/-- ASCII whitespace test backing `str.strip()`. -/
def pyIsSpace (c : Char) : Bool :=
  c = ' ' || c = '\t' || c = '\n' || c = '\r'

/-- Python `str.strip()` on ASCII whitespace. -/
def pyStrip (s : String) : String :=
  String.mk (((s.data.dropWhile pyIsSpace).reverse.dropWhile pyIsSpace).reverse)

/-- Python `s.startswith(p)`. -/
def pyStartsWith (s p : String) : Bool :=
  p.data.isPrefixOf s.data

/-- Python `str.split("-")` on the character list of a string: groups between `'-'`
separators, in order, empty groups kept (Python semantics for a one-character
separator). -/
def splitDash : List Char → List (List Char)
  | [] => [[]]
  | c :: cs =>
    if c = '-' then [] :: splitDash cs
    else
      match splitDash cs with
      | [] => [[c]]
      | g :: gs => (c :: g) :: gs

/-- Value of a decimal digit character, `none` for a non-digit. -/
def digitVal (c : Char) : Option Nat :=
  if '0' ≤ c ∧ c ≤ '9' then some (c.toNat - 48) else none

/-- Accumulating decimal parse over a character list. -/
def pyIntAux : List Char → Nat → Option Nat
  | [], acc => some acc
  | c :: cs, acc =>
    match digitVal c with
    | some d => pyIntAux cs (acc * 10 + d)
    | none => none

/-- Python `int(s)` restricted to nonempty all-digit strings (the shape every
generated booking-id suffix has); any other input fails, matching the
`except`-guarded call in `get_next_booking_id`. -/
def pyIntOfDigits (l : List Char) : Option Nat :=
  if l = [] then none else pyIntAux l 0

/-- Python `int(str(last).split("-")[-1])` as a fallible parse: the text after the
last `-` of the id, read as a decimal number. -/
def pyIntSuffix (s : String) : Option Nat :=
  pyIntOfDigits ((splitDash s.data).getLastD [])

/-- Decimal digit characters of `n`, most significant first, written with an
explicit fuel argument (`n + 1` is always enough). -/
def natDigitsAux : Nat → Nat → List Char → List Char
  | 0, _, acc => acc
  | fuel + 1, n, acc =>
    if n < 10 then Nat.digitChar (n % 10) :: acc
    else natDigitsAux fuel (n / 10) (Nat.digitChar (n % 10) :: acc)

/-- Decimal digit characters of `n`, most significant first. -/
def natDigits (n : Nat) : List Char :=
  natDigitsAux (n + 1) n []

/-- Python `f"{seq:03d}"`: decimal rendering left-padded with `'0'` to width 3. -/
def pad3 (n : Nat) : String :=
  String.mk (List.replicate (3 - (natDigits n).length) '0' ++ natDigits n)

/-! ## Booking store (`ensure_data_file`, `load_bookings`, `get_next_booking_id`) -/

/-- The contents `pd.read_excel` would return: a header row plus booking rows. -/
structure ExcelTable where
  columns : List String
  rows : List Booking
deriving Repr, DecidableEq

/-- State of `BOOKINGS_FILE` on disk. -/
inductive StoreFile where
  | missing
  | corrupt
  | table (t : ExcelTable)
deriving Repr, DecidableEq

/-- Function `ensure_data_file` (app.py): create an empty store with the fixed columns
when the file is absent; an existing file (readable or not) is untouched. -/
def ensure_data_file : StoreFile → StoreFile
  | .missing => .table ⟨BOOKING_COLUMNS, []⟩
  | f => f

/-- Reading `pd.read_excel(BOOKINGS_FILE)`: yields the table, or raises (modelled as
`Except.error`) when the file is absent or unreadable. -/
def pd_read_excel : StoreFile → Except String ExcelTable
  | .missing => .error "FileNotFoundError"
  | .corrupt => .error "read error"
  | .table t => .ok t

/-- Function `load_bookings` (app.py): `ensure_data_file()` then `pd.read_excel(...)`.
Returns the read outcome together with the file state it leaves behind. -/
def load_bookings (f : StoreFile) : Except String ExcelTable × StoreFile :=
  let f1 := ensure_data_file f
  (pd_read_excel f1, f1)

/-- Function `get_next_booking_id` (app.py): filter rows whose `booking_id` starts with
`SL-<today>-`, read the suffix of the LAST such row, return the prefix plus
the 3-digit-padded successor; `001` when no row matches; count-of-matches + 1
when the suffix does not parse. -/
def get_next_booking_id (today : String) (df : List Booking) : String :=
  let pre := "SL-" ++ today ++ "-"
  let todays := df.filter (fun b => pyStartsWith b.booking_id pre)
  let seq : Nat :=
    match todays.getLast? with
    | none => 1
    | some lastB =>
      match pyIntSuffix lastB.booking_id with
      | some n => n + 1
      | none => todays.length + 1
  pre ++ pad3 seq

/-- The rows of `df` whose `booking_id` carries today's `SL-<today>-` prefix. -/
def todaysOf (today : String) (df : List Booking) : List Booking :=
  df.filter (fun b => pyStartsWith b.booking_id ("SL-" ++ today ++ "-"))

/-- Modelled from the spec: the claimed id generator, which takes the MAXIMUM
numeric suffix among today's rows (rather than the last row's suffix) and
falls back to count + 1 only when the last matching id's suffix is
unparseable. Written to compare against `get_next_booking_id`. -/
def nextBookingId_claimed (today : String) (df : List Booking) : String :=
  let pre := "SL-" ++ today ++ "-"
  let todays := df.filter (fun b => pyStartsWith b.booking_id pre)
  let seq : Nat :=
    match todays.getLast? with
    | none => 1
    | some lastB =>
      match pyIntSuffix lastB.booking_id with
      | none => todays.length + 1
      | some _ => ((todays.filterMap (fun b => pyIntSuffix b.booking_id)).foldl max 0) + 1
  pre ++ pad3 seq

/-! ## Payment gateway client (`create_payment_intent`) -/

/-- The fields of the provider's JSON body that `render_booking_form` reads
(`pi_json.get("id", "")` and friends); each may be absent. -/
structure PIJson where
  id : Option String
  redirect_url : Option String
  status : Option String
deriving Repr, DecidableEq

/-- Outcome of the `requests.post` call inside `create_payment_intent`. -/
inductive HttpOutcome where
  | netError
  | response (status_code : Nat) (body : PIJson)
deriving Repr, DecidableEq

/-- Function `create_payment_intent` (app.py), abstracted over the HTTP outcome:
`None` on a missing token, a network exception or an HTTP status ≥ 400,
otherwise the JSON body. -/
def create_payment_intent (out : HttpOutcome) : Option PIJson :=
  if has_ziina_configured then
    match out with
    | .netError => none
    | .response code body => if 400 ≤ code then none else some body
  else none

/-! ## Booking submission (`render_booking_form`, post-submit branch) -/

/-- The persistence-relevant tail of `render_booking_form` (app.py): compute
`booking_id` from the current frame, build `new_row` from the
`create_payment_intent` result (`pi_json`), append it and save. The returned
list is exactly what `save_bookings` writes. -/
def submit_booking (today created_at name phone : String) (tickets : Nat)
    (notes : String) (pi_json : Option PIJson) (df : List Booking) :
    List Booking :=
  let booking_id := get_next_booking_id today df
  let total_amount := tickets * TICKET_PRICE
  let payment_intent_id :=
    match pi_json with
    | some pj => pj.id.getD ""
    | none => ""
  let redirect_url :=
    match pi_json with
    | some pj => pj.redirect_url.getD ""
    | none => ""
  let payment_status :=
    match pi_json with
    | some pj => pj.status.getD "requires_payment_instrument"
    | none => "error"
  df ++ [{ booking_id := booking_id, created_at := created_at, name := name,
           phone := phone, tickets := tickets, ticket_price := TICKET_PRICE,
           total_amount := total_amount, status := "pending",
           payment_intent_id := payment_intent_id,
           payment_status := some payment_status,
           redirect_url := redirect_url, notes := notes }]

/-- Iterated bookings: `k` consecutive form submissions on the same date against the same store
(each one reloads the frame the previous one saved). -/
def createRun (today created_at name phone : String) (tickets : Nat)
    (notes : String) (pi_json : Option PIJson) (df : List Booking) :
    Nat → List Booking
  | 0 => df
  | k + 1 =>
    submit_booking today created_at name phone tickets notes pi_json
      (createRun today created_at name phone tickets notes pi_json df k)

/-! ## Reconciliation engine (`sync_payments_from_ziina`, payment-result sync) -/

/-- The body of the `for idx, row in df.iterrows()` loop of
`sync_payments_from_ziina` for one row: the updated row, paired with the
contribution to the `updated` flag. A blank `payment_intent_id`, a failed
fetch, a falsy body or a falsy status leave the row untouched. -/
def syncRow (fetch : String → Option (Option String)) (b : Booking) :
    Booking × Bool :=
  let pi_id := pyStrip b.payment_intent_id
  if pi_id = "" then (b, false)
  else
    match fetch pi_id with
    | none => (b, false)
    | some none => (b, false)
    | some (some s) =>
      if s = "" then (b, false)
      else
        let b1 := { b with payment_status := some s }
        if s = "completed" then ({ b1 with status := "paid" }, true)
        else if s = "failed" || s = "canceled" then
          ({ b1 with status := "cancelled" }, true)
        else (b1, false)

/-- The full loop of `sync_payments_from_ziina`: every row is visited, the
`updated` flag is the disjunction of the per-row contributions. -/
def syncList (fetch : String → Option (Option String)) :
    List Booking → List Booking × Bool
  | [] => ([], false)
  | b :: rest =>
    let r := syncRow fetch b
    let rs := syncList fetch rest
    (r.1 :: rs.1, r.2 || rs.2)

/-- Function `sync_payments_from_ziina` (app.py): returns the frame after the loop and
whether `save_bookings` was called (`if updated: save_bookings(df)`); with an
unconfigured token the frame is returned unchanged and never saved. -/
def sync_payments_from_ziina (fetch : String → Option (Option String))
    (df : List Booking) : List Booking × Bool :=
  if has_ziina_configured then syncList fetch df else (df, false)

/-- A row for which the loop of `sync_payments_from_ziina` observes a terminal
remote status — exactly the rows that switch the `updated` flag on. -/
def observesTerminal (fetch : String → Option (Option String)) (b : Booking) :
    Prop :=
  pyStrip b.payment_intent_id ≠ "" ∧
    ∃ s, fetch (pyStrip b.payment_intent_id) = some (some s) ∧
      (s = "completed" ∨ s = "failed" ∨ s = "canceled")

instance (fetch : String → Option (Option String)) (b : Booking) :
    Decidable (observesTerminal fetch b) := by
  unfold observesTerminal
  have : Decidable (∃ s, fetch (pyStrip b.payment_intent_id) = some (some s) ∧
      (s = "completed" ∨ s = "failed" ∨ s = "canceled")) := by
    refine decidable_of_iff
      (fetch (pyStrip b.payment_intent_id) = some (some "completed") ∨
       fetch (pyStrip b.payment_intent_id) = some (some "failed") ∨
       fetch (pyStrip b.payment_intent_id) = some (some "canceled")) ?_
    constructor
    · rintro (h | h | h)
      · exact ⟨"completed", h, Or.inl rfl⟩
      · exact ⟨"failed", h, Or.inr (Or.inl rfl)⟩
      · exact ⟨"canceled", h, Or.inr (Or.inr rfl)⟩
    · rintro ⟨s, hf, (rfl | rfl | rfl)⟩
      · exact Or.inl hf
      · exact Or.inr (Or.inl hf)
      · exact Or.inr (Or.inr hf)
  exact instDecidableAnd

/-- Index of the first row matching a predicate
(`df[mask]; row.index[0]` in pandas terms). -/
def findFirstIdx (p : Booking → Bool) : List Booking → Option Nat
  | [] => none
  | b :: rest => if p b then some 0 else (findFirstIdx p rest).map (· + 1)

/-- Replace the row at position `i` by `f` of itself (`df.at[idx, ...] = ...`). -/
def updateAt (i : Nat) (f : Booking → Booking) : List Booking → List Booking
  | [] => []
  | b :: rest =>
    match i with
    | 0 => f b :: rest
    | j + 1 => b :: updateAt j f rest

/-- The single-row status mapping of `render_payment_result` (app.py):
`payment_status` is overwritten with the fetched status (even a missing one),
then `completed` forces `status = "paid"` and `failed`/`canceled` force
`status = "cancelled"`. -/
def syncOneCore (b : Booking) (st : Option String) : Booking :=
  let b1 := { b with payment_status := st }
  if st = some "completed" then { b1 with status := "paid" }
  else if st = some "failed" || st = some "canceled" then
    { b1 with status := "cancelled" }
  else b1

/-- The store-mutating core of `render_payment_result` (app.py): with a
nonempty `pi_id`, a truthy fetched body and a row whose `payment_intent_id`
equals `pi_id`, apply `syncOneCore` to the first such row and call
`save_bookings` unconditionally; otherwise leave the frame alone and do not
save. The `Bool` records whether `save_bookings` ran. -/
def render_payment_result (fetch : String → Option (Option String))
    (df : List Booking) (pi_id : String) : List Booking × Bool :=
  if pi_id = "" then (df, false)
  else
    match fetch pi_id with
    | none => (df, false)
    | some st =>
      match findFirstIdx (fun b => b.payment_intent_id = pi_id) df with
      | none => (df, false)
      | some i => (updateAt i (fun b => syncOneCore b st) df, true)

/-! ## Admin manual override (dashboard.py / `render_dashboard`) -/

/-- Assignment `df.loc[df["booking_id"] == selected_id, "status"] = new_status` followed
by `save_bookings(df)`: every row with the selected id gets the chosen status,
whatever it is. -/
def update_booking_status (df : List Booking) (selected_id new_status : String) :
    List Booking :=
  df.map (fun b =>
    if b.booking_id = selected_id then { b with status := new_status } else b)

/-- Equality of two optional rows on every field except `status` and
`payment_status` — the frame `sync_payments_from_ziina` must preserve. -/
def sameFrame : Option Booking → Option Booking → Prop
  | none, none => True
  | some b, some c =>
    c.booking_id = b.booking_id ∧ c.created_at = b.created_at ∧
    c.name = b.name ∧ c.phone = b.phone ∧ c.tickets = b.tickets ∧
    c.ticket_price = b.ticket_price ∧ c.total_amount = b.total_amount ∧
    c.payment_intent_id = b.payment_intent_id ∧
    c.redirect_url = b.redirect_url ∧ c.notes = b.notes
  | _, _ => False

/-! ## Concrete sample data for witnesses and counterexamples -/

/-- A concrete pending booking as `render_booking_form` would create it. -/
def sampleBooking : Booking :=
  { booking_id := "SL-20250101-001", created_at := "2025-01-01 10:00:00",
    name := "Aisha", phone := "0500000000", tickets := 1, ticket_price := 175,
    total_amount := 175, status := "pending", payment_intent_id := "pi_1",
    payment_status := some "requires_payment_instrument",
    redirect_url := "https://pay.ziina.com/x", notes := "" }

/-- A concrete booking that has already been reconciled to `paid`. -/
def samplePaid : Booking :=
  { sampleBooking with status := "paid", payment_status := some "completed" }

/-- A store whose two rows for the day stand in the order `002`, `001`:
the last row of the day does not carry the maximum suffix. -/
def outOfOrderStore : List Booking :=
  [{ sampleBooking with booking_id := "SL-20250101-002" },
   { sampleBooking with booking_id := "SL-20250101-001" }]

/-! ## Lemmas about the decimal-digit and split primitives -/

theorem pyIntAux_replicate_zero (z : Nat) (l : List Char) :
    pyIntAux (List.replicate z '0' ++ l) 0 = pyIntAux l 0 := by
  induction z with
  | zero => rfl
  | succ z ih => simpa [pyIntAux, digitVal] using ih

theorem digitVal_digitChar {d : Nat} (h : d < 10) :
    digitVal (Nat.digitChar d) = some d := by
  interval_cases d <;> decide

theorem digitChar_ne_dash {d : Nat} (h : d < 10) : Nat.digitChar d ≠ '-' := by
  interval_cases d <;> decide

theorem pyIntAux_natDigitsAux :
    ∀ (fuel n : Nat), n < 10 ^ fuel → ∀ (acc : List Char) (k : Nat),
      ∃ e, pyIntAux (natDigitsAux fuel n acc) k = pyIntAux acc (k * 10 ^ e + n) := by
  intro fuel
  induction fuel with
  | zero =>
    intro n hn acc k
    interval_cases n
    exact ⟨0, by simp [natDigitsAux]⟩
  | succ fuel ih =>
    intro n hn acc k
    by_cases h10 : n < 10
    · refine ⟨1, ?_⟩
      have hmod : n % 10 = n := Nat.mod_eq_of_lt h10
      rw [natDigitsAux]
      simp only [h10, if_true]
      rw [pyIntAux, hmod, digitVal_digitChar h10]
      norm_num
    · have hdiv : n / 10 < 10 ^ fuel := by
        apply Nat.div_lt_of_lt_mul
        have hp : (10 : Nat) ^ (fuel + 1) = 10 * 10 ^ fuel := by rw [pow_succ]; ring
        omega
      obtain ⟨e, he⟩ := ih (n / 10) hdiv (Nat.digitChar (n % 10) :: acc) k
      refine ⟨e + 1, ?_⟩
      rw [natDigitsAux]
      simp only [h10, if_false]
      rw [he, pyIntAux]
      rw [digitVal_digitChar (Nat.mod_lt n (by norm_num))]
      show pyIntAux acc ((k * 10 ^ e + n / 10) * 10 + n % 10) =
        pyIntAux acc (k * 10 ^ (e + 1) + n)
      congr 1
      have hd : 10 * (n / 10) + n % 10 = n := Nat.div_add_mod n 10
      calc (k * 10 ^ e + n / 10) * 10 + n % 10
          = k * (10 ^ e * 10) + (10 * (n / 10) + n % 10) := by ring
        _ = k * 10 ^ (e + 1) + n := by rw [hd, pow_succ]


theorem length_le_natDigitsAux (fuel n : Nat) (acc : List Char) :
    acc.length ≤ (natDigitsAux fuel n acc).length := by
  induction fuel generalizing n acc with
  | zero => simp [natDigitsAux]
  | succ fuel ih =>
    rw [natDigitsAux]
    by_cases h10 : n < 10
    · simp [h10]
    · simp only [h10, if_false]
      exact le_trans (by simp) (ih (n / 10) (Nat.digitChar (n % 10) :: acc))

theorem natDigits_ne_nil (n : Nat) : natDigits n ≠ [] := by
  have h := length_le_natDigitsAux n (n / 10) (Nat.digitChar (n % 10) :: [])
  unfold natDigits
  rw [natDigitsAux]
  by_cases h10 : n < 10
  · simp [h10]
  · simp only [h10, if_false]
    intro hc
    rw [hc] at h
    simp at h

theorem mem_natDigitsAux {c : Char} :
    ∀ (fuel n : Nat) (acc : List Char), c ∈ natDigitsAux fuel n acc →
      c ∈ acc ∨ ∃ d, d < 10 ∧ c = Nat.digitChar d := by
  intro fuel
  induction fuel with
  | zero => intro n acc h; exact Or.inl h
  | succ fuel ih =>
    intro n acc h
    rw [natDigitsAux] at h
    by_cases h10 : n < 10
    · simp only [h10, if_true] at h
      rcases List.mem_cons.mp h with h | h
      · exact Or.inr ⟨n % 10, Nat.mod_lt n (by norm_num), h⟩
      · exact Or.inl h
    · simp only [h10, if_false] at h
      rcases ih (n / 10) (Nat.digitChar (n % 10) :: acc) h with h | h
      · rcases List.mem_cons.mp h with h | h
        · exact Or.inr ⟨n % 10, Nat.mod_lt n (by norm_num), h⟩
        · exact Or.inl h
      · exact Or.inr h

theorem dash_not_mem_natDigits (n : Nat) : '-' ∉ natDigits n := by
  intro h
  rcases mem_natDigitsAux (n + 1) n [] h with h | ⟨d, hd, h⟩
  · simp at h
  · exact digitChar_ne_dash hd h.symm

theorem dash_not_mem_pad3 (n : Nat) : '-' ∉ (pad3 n).data := by
  intro h
  rcases List.mem_append.mp h with h | h
  · exact absurd (List.eq_of_mem_replicate h) (by decide)
  · exact dash_not_mem_natDigits n h

theorem pyIntOfDigits_pad3 (n : Nat) : pyIntOfDigits (pad3 n).data = some n := by
  have hne : List.replicate (3 - (natDigits n).length) '0' ++ natDigits n ≠ [] := by
    simp [natDigits_ne_nil n]
  show pyIntOfDigits (List.replicate (3 - (natDigits n).length) '0' ++ natDigits n) = some n
  rw [pyIntOfDigits, if_neg hne, pyIntAux_replicate_zero]
  have hlt : n < 10 ^ (n + 1) := by
    calc n < 10 ^ n := Nat.lt_pow_self (by norm_num) n
    _ ≤ 10 ^ (n + 1) := Nat.pow_le_pow_right (by norm_num) (Nat.le_succ n)
  obtain ⟨e, he⟩ := pyIntAux_natDigitsAux (n + 1) n hlt [] 0
  unfold natDigits
  rw [he]
  simp [pyIntAux]

theorem splitDash_ne_nil : ∀ l : List Char, splitDash l ≠ [] := by
  intro l
  match l with
  | [] => simp [splitDash]
  | c :: cs =>
    rw [splitDash]
    by_cases h : c = '-'
    · simp [h]
    · simp only [h, if_false]
      match splitDash cs with
      | [] => simp
      | g :: gs => simp

theorem splitDash_noDash : ∀ l : List Char, '-' ∉ l → splitDash l = [l] := by
  intro l
  induction l with
  | nil => intro _; rfl
  | cons c cs ih =>
    intro h
    have hc : ¬ c = '-' := fun hc => h (hc ▸ List.mem_cons_self c cs)
    have hcs : '-' ∉ cs := fun hm => h (List.mem_cons_of_mem c hm)
    rw [splitDash, if_neg hc, ih hcs]

theorem two_le_splitDash_length :
    ∀ l : List Char, '-' ∈ l → 2 ≤ (splitDash l).length := by
  intro l
  induction l with
  | nil => intro h; simp at h
  | cons c cs ih =>
    intro h
    rw [splitDash]
    by_cases hc : c = '-'
    · simp only [hc, if_true, List.length_cons]
      have := splitDash_ne_nil cs
      have : 1 ≤ (splitDash cs).length := by
        cases hcs : splitDash cs with
        | nil => exact absurd hcs this
        | cons a as => simp
      omega
    · simp only [hc, if_false]
      have hmem : '-' ∈ cs := by
        rcases List.mem_cons.mp h with h | h
        · exact absurd h.symm hc
        · exact h
      have h2 := ih hmem
      cases hcs : splitDash cs with
      | nil => exact absurd hcs (splitDash_ne_nil cs)
      | cons g gs => rw [hcs] at h2; simpa using h2

theorem splitDash_getLastD_append :
    ∀ xs ys : List Char,
      (splitDash (xs ++ '-' :: ys)).getLastD [] = (splitDash ys).getLastD [] := by
  intro xs
  induction xs with
  | nil =>
    intro ys
    show (splitDash ('-' :: ys)).getLastD [] = _
    rw [splitDash, if_pos rfl, List.getLastD_cons]
  | cons c cs ih =>
    intro ys
    show (splitDash (c :: (cs ++ '-' :: ys))).getLastD [] = _
    rw [splitDash]
    by_cases hc : c = '-'
    · rw [if_pos hc, List.getLastD_cons, List.getLastD_eq_getLast?,
        ← List.getLastD_eq_getLast? []]
      exact ih ys
    · rw [if_neg hc]
      have hmem : '-' ∈ cs ++ '-' :: ys := List.mem_append_right cs (List.mem_cons_self _ _)
      have h2 := two_le_splitDash_length _ hmem
      cases hsp : splitDash (cs ++ '-' :: ys) with
      | nil => exact absurd hsp (splitDash_ne_nil _)
      | cons g gs =>
        rw [hsp] at h2
        have hgs : gs ≠ [] := by
          cases gs with
          | nil => simp at h2
          | cons a as => simp
        rw [← ih ys, hsp, List.getLastD_cons, List.getLastD_cons,
          List.getLastD_eq_getLast?, List.getLastD_eq_getLast?]
        cases hgl : gs.getLast? with
        | none => exact absurd (List.getLast?_eq_none_iff.mp hgl) hgs
        | some a => rfl

theorem pyIntSuffix_generated (today : String) (n : Nat) :
    pyIntSuffix (("SL-" ++ today ++ "-") ++ pad3 n) = some n := by
  rw [pyIntSuffix]
  have hdata : (("SL-" ++ today ++ "-") ++ pad3 n).data
      = ("SL-" ++ today).data ++ '-' :: (pad3 n).data := by
    rw [String.data_append, String.data_append]
    simp
  rw [hdata, splitDash_getLastD_append, splitDash_noDash _ (dash_not_mem_pad3 n)]
  exact pyIntOfDigits_pad3 n

theorem isPrefixOf_append_self (l m : List Char) : l.isPrefixOf (l ++ m) = true := by
  induction l with
  | nil => simp [List.isPrefixOf]
  | cons c cs ih => simp [List.isPrefixOf, ih]

theorem pyStartsWith_append (p x : String) : pyStartsWith (p ++ x) p = true := by
  rw [pyStartsWith, String.data_append]
  exact isPrefixOf_append_self p.data x.data

/-! ## Lemmas about `get_next_booking_id` and repeated submissions -/

theorem get_next_booking_id_emptyToday (today : String) (df : List Booking)
    (h : todaysOf today df = []) :
    get_next_booking_id today df = ("SL-" ++ today ++ "-") ++ pad3 1 := by
  rw [get_next_booking_id]
  rw [show df.filter (fun b => pyStartsWith b.booking_id ("SL-" ++ today ++ "-"))
      = todaysOf today df from rfl, h]
  rfl

theorem get_next_booking_id_lastParsed (today : String) (df : List Booking)
    (b : Booking) (n : Nat) (hlast : (todaysOf today df).getLast? = some b)
    (hid : b.booking_id = ("SL-" ++ today ++ "-") ++ pad3 n) :
    get_next_booking_id today df = ("SL-" ++ today ++ "-") ++ pad3 (n + 1) := by
  have hsuf : pyIntSuffix b.booking_id = some n := by
    rw [hid]; exact pyIntSuffix_generated today n
  rw [get_next_booking_id]
  rw [show df.filter (fun b => pyStartsWith b.booking_id ("SL-" ++ today ++ "-"))
      = todaysOf today df from rfl, hlast]
  simp only [hsuf]

theorem get_next_booking_id_lastUnparsed (today : String) (df : List Booking)
    (b : Booking) (hlast : (todaysOf today df).getLast? = some b)
    (hbad : pyIntSuffix b.booking_id = none) :
    get_next_booking_id today df
      = ("SL-" ++ today ++ "-") ++ pad3 ((todaysOf today df).length + 1) := by
  rw [get_next_booking_id]
  rw [show df.filter (fun b => pyStartsWith b.booking_id ("SL-" ++ today ++ "-"))
      = todaysOf today df from rfl, hlast]
  simp only [hbad]

theorem todaysOf_append_match (today : String) (df : List Booking) (b : Booking)
    (h : pyStartsWith b.booking_id ("SL-" ++ today ++ "-") = true) :
    todaysOf today (df ++ [b]) = todaysOf today df ++ [b] := by
  rw [todaysOf, List.filter_append, todaysOf]
  congr 1
  simp [h]

theorem submit_booking_eq_append (today created_at name phone : String)
    (tickets : Nat) (notes : String) (pi_json : Option PIJson)
    (df : List Booking) :
    ∃ r : Booking,
      submit_booking today created_at name phone tickets notes pi_json df
        = df ++ [r] ∧ r.booking_id = get_next_booking_id today df := by
  exact ⟨_, rfl, rfl⟩

theorem createRun_nextId (today created_at name phone : String) (tickets : Nat)
    (notes : String) (pi_json : Option PIJson) (df : List Booking) (n : Nat)
    (hbase : todaysOf today df = [] ∧ n = 0 ∨
      ∃ b, (todaysOf today df).getLast? = some b ∧
        b.booking_id = ("SL-" ++ today ++ "-") ++ pad3 n) :
    ∀ k : Nat,
      get_next_booking_id today
          (createRun today created_at name phone tickets notes pi_json df k)
        = ("SL-" ++ today ++ "-") ++ pad3 (n + k + 1) := by
  have main : ∀ k : Nat,
      get_next_booking_id today
          (createRun today created_at name phone tickets notes pi_json df k)
        = ("SL-" ++ today ++ "-") ++ pad3 (n + k + 1) ∧
      ∃ b, (todaysOf today
            (createRun today created_at name phone tickets notes pi_json df (k + 1))).getLast?
          = some b ∧
        b.booking_id = ("SL-" ++ today ++ "-") ++ pad3 (n + k + 1) := by
    intro k
    induction k with
    | zero =>
      have h0 : get_next_booking_id today df = ("SL-" ++ today ++ "-") ++ pad3 (n + 1) := by
        rcases hbase with ⟨hemp, hn⟩ | ⟨b, hlast, hid⟩
        · rw [get_next_booking_id_emptyToday today df hemp, hn]
        · exact get_next_booking_id_lastParsed today df b n hlast hid
      refine ⟨by simpa using h0, ?_⟩
      obtain ⟨r, hr, hrid⟩ :=
        submit_booking_eq_append today created_at name phone tickets notes pi_json df
      refine ⟨r, ?_, ?_⟩
      · show (todaysOf today (submit_booking today created_at name phone tickets
          notes pi_json df)).getLast? = some r
        rw [hr, todaysOf_append_match today df r
            (by rw [hrid, h0]; exact pyStartsWith_append _ _),
          List.getLast?_concat]
      · rw [hrid, h0]
    | succ k ih =>
      obtain ⟨_, b, hlast, hid⟩ := ih
      have hstep := get_next_booking_id_lastParsed today _ b (n + k + 1) hlast hid
      constructor
      · rw [hstep]
        exact congrArg (fun m => ("SL-" ++ today ++ "-") ++ pad3 m) (by omega)
      · obtain ⟨r, hr, hrid⟩ :=
          submit_booking_eq_append today created_at name phone tickets notes pi_json
            (createRun today created_at name phone tickets notes pi_json df (k + 1))
        refine ⟨r, ?_, ?_⟩
        · show (todaysOf today (submit_booking today created_at name phone tickets
            notes pi_json (createRun today created_at name phone tickets notes
              pi_json df (k + 1)))).getLast? = some r
          rw [hr, todaysOf_append_match today _ r
              (by rw [hrid, hstep]; exact pyStartsWith_append _ _),
            List.getLast?_concat]
        · rw [hrid, hstep]
          exact congrArg (fun m => ("SL-" ++ today ++ "-") ++ pad3 m) (by omega)
  intro k
  exact (main k).1

/-! ## Lemmas about the reconciliation engine -/

theorem syncRow_frame (fetch : String → Option (Option String)) (b : Booking) :
    sameFrame (some b) (some (syncRow fetch b).1) := by
  rw [syncRow]
  split
  · exact ⟨rfl, rfl, rfl, rfl, rfl, rfl, rfl, rfl, rfl, rfl⟩
  · split
    · exact ⟨rfl, rfl, rfl, rfl, rfl, rfl, rfl, rfl, rfl, rfl⟩
    · exact ⟨rfl, rfl, rfl, rfl, rfl, rfl, rfl, rfl, rfl, rfl⟩
    · split
      · exact ⟨rfl, rfl, rfl, rfl, rfl, rfl, rfl, rfl, rfl, rfl⟩
      · split
        · exact ⟨rfl, rfl, rfl, rfl, rfl, rfl, rfl, rfl, rfl, rfl⟩
        · split
          · exact ⟨rfl, rfl, rfl, rfl, rfl, rfl, rfl, rfl, rfl, rfl⟩
          · exact ⟨rfl, rfl, rfl, rfl, rfl, rfl, rfl, rfl, rfl, rfl⟩

theorem syncRow_status_cases (fetch : String → Option (Option String))
    (b : Booking) :
    (syncRow fetch b).1.status = b.status ∨ (syncRow fetch b).1.status = "paid" ∨
      (syncRow fetch b).1.status = "cancelled" := by
  rw [syncRow]
  split
  · exact Or.inl rfl
  · split
    · exact Or.inl rfl
    · exact Or.inl rfl
    · split
      · exact Or.inl rfl
      · split
        · exact Or.inr (Or.inl rfl)
        · split
          · exact Or.inr (Or.inr rfl)
          · exact Or.inl rfl

theorem syncRow_flag_iff (fetch : String → Option (Option String)) (b : Booking) :
    (syncRow fetch b).2 = true ↔ observesTerminal fetch b := by
  by_cases hne : pyStrip b.payment_intent_id = ""
  · simp [syncRow, observesTerminal, hne]
  · cases hf : fetch (pyStrip b.payment_intent_id) with
    | none => simp [syncRow, observesTerminal, hne, hf]
    | some st =>
      cases st with
      | none => simp [syncRow, observesTerminal, hne, hf]
      | some s =>
        by_cases hs0 : s = ""
        · subst hs0; simp [syncRow, observesTerminal, hne, hf]
        · by_cases hsc : s = "completed"
          · subst hsc; simp [syncRow, observesTerminal, hne, hf]
          · by_cases hsf : s = "failed"
            · subst hsf; simp [syncRow, observesTerminal, hne, hf]
            · by_cases hscn : s = "canceled"
              · subst hscn; simp [syncRow, observesTerminal, hne, hf]
              · simp [syncRow, observesTerminal, hne, hf, hs0, hsc, hsf, hscn]

theorem syncList_fst (fetch : String → Option (Option String)) :
    ∀ df : List Booking,
      (syncList fetch df).1 = df.map (fun b => (syncRow fetch b).1) := by
  intro df
  induction df with
  | nil => rfl
  | cons b rest ih => simp [syncList, ih]

theorem syncList_flag (fetch : String → Option (Option String)) :
    ∀ df : List Booking,
      (syncList fetch df).2 = true ↔ ∃ b ∈ df, (syncRow fetch b).2 = true := by
  intro df
  induction df with
  | nil => simp [syncList]
  | cons b rest ih =>
    rw [syncList]
    simp only [Bool.or_eq_true, List.mem_cons]
    constructor
    · rintro (h | h)
      · exact ⟨b, Or.inl rfl, h⟩
      · obtain ⟨c, hc, hflag⟩ := ih.mp h
        exact ⟨c, Or.inr hc, hflag⟩
    · rintro ⟨c, (rfl | hc), hflag⟩
      · exact Or.inl hflag
      · exact Or.inr (ih.mpr ⟨c, hc, hflag⟩)

/-! ## Lemmas about the single-record variant -/

theorem syncOneCore_idem (b : Booking) (st : Option String) :
    syncOneCore (syncOneCore b st) st = syncOneCore b st := by
  rw [syncOneCore, syncOneCore]
  split
  · rfl
  · split
    · rfl
    · rfl

theorem syncOneCore_pi (b : Booking) (st : Option String) :
    (syncOneCore b st).payment_intent_id = b.payment_intent_id := by
  rw [syncOneCore]
  split
  · rfl
  · split
    · rfl
    · rfl

theorem syncOneCore_status_cases (b : Booking) (st : Option String) :
    (syncOneCore b st).status = b.status ∨ (syncOneCore b st).status = "paid" ∨
      (syncOneCore b st).status = "cancelled" := by
  rw [syncOneCore]
  split
  · exact Or.inr (Or.inl rfl)
  · split
    · exact Or.inr (Or.inr rfl)
    · exact Or.inl rfl

theorem findFirstIdx_congr (p : Booking → Bool) (f : Booking → Booking)
    (hp : ∀ b, p (f b) = p b) :
    ∀ (l : List Booking) (i : Nat),
      findFirstIdx p (updateAt i f l) = findFirstIdx p l := by
  intro l
  induction l with
  | nil => intro i; cases i <;> rfl
  | cons b rest ih =>
    intro i
    cases i with
    | zero => simp [updateAt, findFirstIdx, hp b]
    | succ j => simp [updateAt, findFirstIdx, ih j]

theorem updateAt_updateAt (f : Booking → Booking) (hf : ∀ b, f (f b) = f b) :
    ∀ (l : List Booking) (i : Nat),
      updateAt i f (updateAt i f l) = updateAt i f l := by
  intro l
  induction l with
  | nil => intro i; cases i <;> rfl
  | cons b rest ih =>
    intro i
    cases i with
    | zero => simp [updateAt, hf b]
    | succ j => simp [updateAt, ih j]

theorem updateAt_getElem (f : Booking → Booking) :
    ∀ (l : List Booking) (i j : Nat),
      (updateAt i f l)[j]? = l[j]? ∨ (updateAt i f l)[j]? = Option.map f l[j]? := by
  intro l
  induction l with
  | nil => intro i j; left; cases i <;> rfl
  | cons b rest ih =>
    intro i j
    cases i with
    | zero =>
      cases j with
      | zero => right; simp [updateAt]
      | succ j2 => left; simp [updateAt]
    | succ i2 =>
      cases j with
      | zero => left; simp [updateAt]
      | succ j2 =>
        rcases ih i2 j2 with h | h
        · left; simpa [updateAt] using h
        · right; simpa [updateAt] using h

theorem update_booking_status_getElem (df : List Booking)
    (selected_id new_status : String) (i : Nat) (b : Booking)
    (hb : df[i]? = some b) (hid : b.booking_id = selected_id) :
    (update_booking_status df selected_id new_status)[i]?
      = some { b with status := new_status } := by
  rw [update_booking_status, List.getElem?_map, hb]
  simp [hid]

/-! ## Claims -/

/-- C1: Whenever reconciliation (`sync_payments_from_ziina` over bookings with
a non-empty `payment_intent_id`, or the single-record variant on
payment-result return) observes a remote status for a booking: remote
`completed` yields local status `paid`; remote `failed` or `canceled` yields
local status `cancelled`; any other remote status leaves the local `status`
unchanged while `payment_status` is still overwritten with the raw remote
value. -/
theorem claim_C1_status_mapping (fetch : String → Option (Option String))
    (b : Booking) (s : String)
    (hpi : pyStrip b.payment_intent_id ≠ "")
    (hf : fetch (pyStrip b.payment_intent_id) = some (some s)) (hs : s ≠ "") :
    ((s = "completed" → (syncRow fetch b).1.status = "paid") ∧
     ((s = "failed" ∨ s = "canceled") → (syncRow fetch b).1.status = "cancelled") ∧
     (s ≠ "completed" → s ≠ "failed" → s ≠ "canceled" →
       (syncRow fetch b).1.status = b.status ∧
       (syncRow fetch b).1.payment_status = some s)) ∧
    ((s = "completed" → (syncOneCore b (some s)).status = "paid") ∧
     ((s = "failed" ∨ s = "canceled") → (syncOneCore b (some s)).status = "cancelled") ∧
     (s ≠ "completed" → s ≠ "failed" → s ≠ "canceled" →
       (syncOneCore b (some s)).status = b.status ∧
       (syncOneCore b (some s)).payment_status = some s)) := by
  refine ⟨⟨?_, ?_, ?_⟩, ?_, ?_, ?_⟩
  · rintro rfl
    simp [syncRow, hpi, hf]
  · rintro (rfl | rfl) <;> simp [syncRow, hpi, hf]
  · intro h1 h2 h3
    constructor <;> simp [syncRow, hpi, hf, hs, h1, h2, h3]
  · rintro rfl
    simp [syncOneCore]
  · rintro (rfl | rfl) <;> simp [syncOneCore]
  · intro h1 h2 h3
    constructor <;> simp [syncOneCore, h1, h2, h3]

/-- Witness for C1: a concrete booking observing remote `completed` comes
back with status `paid` from the sync loop. -/
theorem claim_C1_status_mapping_witness :
    (syncRow (fun _ => some (some "completed")) sampleBooking).1.status = "paid" :=
  ((claim_C1_status_mapping (fun _ => some (some "completed")) sampleBooking
    "completed" (by decide) rfl (by decide)).1.1) rfl

/-- C2 counterexample: a booking whose remote status is the non-terminal
`pending` gets its `payment_status` overwritten — the record set changes —
yet `sync_payments_from_ziina` does not call `save_bookings`. -/
theorem claim_C2_counterexample :
    (sync_payments_from_ziina (fun _ => some (some "pending")) [sampleBooking]).1
      ≠ [sampleBooking] ∧
    (sync_payments_from_ziina (fun _ => some (some "pending")) [sampleBooking]).2
      = false := by
  decide

/-- C2 amended: after `sync_payments_from_ziina` completes, the full record
set is persisted exactly when some booking observed a terminal remote status
(`completed`, `failed` or `canceled`); a record whose only change is its
`payment_status` field being overwritten with a non-terminal remote status
does not trigger persistence. -/
theorem claim_C2_amended (fetch : String → Option (Option String))
    (df : List Booking) :
    (sync_payments_from_ziina fetch df).2 = true
      ↔ ∃ b ∈ df, observesTerminal fetch b := by
  have hz : has_ziina_configured = true := by decide
  rw [sync_payments_from_ziina, if_pos hz, syncList_flag]
  constructor
  · rintro ⟨b, hb, hflag⟩
    exact ⟨b, hb, (syncRow_flag_iff fetch b).mp hflag⟩
  · rintro ⟨b, hb, hobs⟩
    exact ⟨b, hb, (syncRow_flag_iff fetch b).mpr hobs⟩

/-- C3 counterexample: on a store whose rows for the day are ordered `002`,
`001`, the implementation reads the LAST row's suffix and produces
`SL-20250101-002` (a collision), while the claimed maximum-suffix rule would
produce `SL-20250101-003`. -/
theorem claim_C3_counterexample :
    get_next_booking_id "20250101" outOfOrderStore = "SL-20250101-002" ∧
    nextBookingId_claimed "20250101" outOfOrderStore = "SL-20250101-003" ∧
    get_next_booking_id "20250101" outOfOrderStore
      ≠ nextBookingId_claimed "20250101" outOfOrderStore := by
  decide

/-- C3 amended: `get_next_booking_id` reads the suffix of the LAST record
carrying today's prefix (not the maximum suffix) and returns prefix plus
(last + 1) zero-padded to 3 digits; suffix `001` when no record exists today;
count-of-today + 1 when that last suffix is unparseable. Consequently, for
every sequence of bookings created on the same date on an uncorrupted store
(one where the last record of the day, if any, carries a generated id), the
generated suffixes are consecutive — strictly increasing with no gaps. -/
theorem claim_C3_amended (today created_at name phone : String) (tickets : Nat)
    (notes : String) (pi_json : Option PIJson) (df : List Booking) :
    (todaysOf today df = [] →
      get_next_booking_id today df = ("SL-" ++ today ++ "-") ++ "001") ∧
    (∀ b, (todaysOf today df).getLast? = some b →
      pyIntSuffix b.booking_id = none →
      get_next_booking_id today df
        = ("SL-" ++ today ++ "-") ++ pad3 ((todaysOf today df).length + 1)) ∧
    (∀ n b, (todaysOf today df).getLast? = some b →
      b.booking_id = ("SL-" ++ today ++ "-") ++ pad3 n →
      ∀ k, get_next_booking_id today
          (createRun today created_at name phone tickets notes pi_json df k)
        = ("SL-" ++ today ++ "-") ++ pad3 (n + k + 1)) ∧
    (todaysOf today df = [] →
      ∀ k, get_next_booking_id today
          (createRun today created_at name phone tickets notes pi_json df k)
        = ("SL-" ++ today ++ "-") ++ pad3 (k + 1)) := by
  refine ⟨?_, ?_, ?_, ?_⟩
  · intro h
    rw [get_next_booking_id_emptyToday today df h]
    rfl
  · intro b hlast hbad
    exact get_next_booking_id_lastUnparsed today df b hlast hbad
  · intro n b hlast hid k
    exact createRun_nextId today created_at name phone tickets notes pi_json df n
      (Or.inr ⟨b, hlast, hid⟩) k
  · intro h k
    rw [createRun_nextId today created_at name phone tickets notes pi_json df 0
      (Or.inl ⟨h, rfl⟩) k]
    exact congrArg (fun m => ("SL-" ++ today ++ "-") ++ pad3 m) (by omega)

/-- Witness for C3 amended: starting from a store whose last (only) booking
of the day is `SL-20250101-001`, the id generated after one further
submission is the consecutive `SL-20250101-003` = prefix + pad3 (1 + 1 + 1). -/
theorem claim_C3_amended_witness :
    get_next_booking_id "20250101"
        (createRun "20250101" "2025-01-01 11:00:00" "Noor" "0501111111" 1 ""
          none [sampleBooking] 1)
      = ("SL-" ++ "20250101" ++ "-") ++ pad3 (1 + 1 + 1) :=
  (claim_C3_amended "20250101" "2025-01-01 11:00:00" "Noor" "0501111111" 1 ""
      none [sampleBooking]).2.2.1 1 sampleBooking (by decide) (by decide) 1

/-- C4 counterexample: the admin manual override moves a `paid` booking back
to `pending` — the claimed no-backward-transition invariant fails for the
manual override. -/
theorem claim_C4_counterexample :
    samplePaid.status = "paid" ∧
    (update_booking_status [samplePaid] "SL-20250101-001" "pending").map
        Booking.status = ["pending"] := by
  decide

/-- C4 amended: the two reconciliation operations never move a booking back
to `pending` (a synced row is `pending` only if it already was), but the
administrator's manual override writes whatever status was chosen — including
`pending` — onto every row with the selected booking id. -/
theorem claim_C4_amended (fetch : String → Option (Option String))
    (df : List Booking) (pi_id sel new : String) :
    (∀ (i : Nat) (b2 : Booking),
      ((sync_payments_from_ziina fetch df).1)[i]? = some b2 →
      b2.status = "pending" → ∃ b, df[i]? = some b ∧ b.status = "pending") ∧
    (∀ (i : Nat) (b2 : Booking),
      ((render_payment_result fetch df pi_id).1)[i]? = some b2 →
      b2.status = "pending" → ∃ b, df[i]? = some b ∧ b.status = "pending") ∧
    (∀ (i : Nat) (b : Booking), df[i]? = some b → b.booking_id = sel →
      (update_booking_status df sel new)[i]? = some { b with status := new }) := by
  have hz : has_ziina_configured = true := by decide
  refine ⟨?_, ?_, ?_⟩
  · intro i b2 hb2 hpend
    rw [sync_payments_from_ziina, if_pos hz, syncList_fst, List.getElem?_map] at hb2
    cases hdf : df[i]? with
    | none => rw [hdf] at hb2; exact absurd hb2 (by simp)
    | some b =>
      rw [hdf] at hb2
      have hb2' : b2 = (syncRow fetch b).1 := by simpa using hb2.symm
      refine ⟨b, rfl, ?_⟩
      rcases syncRow_status_cases fetch b with h | h | h
      · rw [← h, ← hb2', hpend]
      · rw [hb2', h] at hpend; exact absurd hpend (by decide)
      · rw [hb2', h] at hpend; exact absurd hpend (by decide)
  · intro i b2 hb2 hpend
    rw [render_payment_result] at hb2
    by_cases hemp : pi_id = ""
    · rw [if_pos hemp] at hb2
      exact ⟨b2, hb2, hpend⟩
    · rw [if_neg hemp] at hb2
      cases hf : fetch pi_id with
      | none =>
        rw [hf] at hb2
        exact ⟨b2, hb2, hpend⟩
      | some st =>
        rw [hf] at hb2
        cases hidx : findFirstIdx (fun b => b.payment_intent_id = pi_id) df with
        | none =>
          rw [hidx] at hb2
          exact ⟨b2, hb2, hpend⟩
        | some j =>
          rw [hidx] at hb2
          have hb2' : (updateAt j (fun b => syncOneCore b st) df)[i]? = some b2 := hb2
          rcases updateAt_getElem (fun b => syncOneCore b st) df j i with h | h
          · rw [h] at hb2'
            exact ⟨b2, hb2', hpend⟩
          · rw [h] at hb2'
            cases hdf : df[i]? with
            | none => rw [hdf] at hb2'; exact absurd hb2' (by simp)
            | some b =>
              rw [hdf] at hb2'
              have hb2'' : b2 = syncOneCore b st := by simpa using hb2'.symm
              refine ⟨b, rfl, ?_⟩
              rcases syncOneCore_status_cases b st with h2 | h2 | h2
              · rw [← h2, ← hb2'', hpend]
              · rw [hb2'', h2] at hpend; exact absurd hpend (by decide)
              · rw [hb2'', h2] at hpend; exact absurd hpend (by decide)
  · intro i b hdf hid
    exact update_booking_status_getElem df sel new i b hdf hid

/-- Witness for C4 amended: the override applied to a concrete one-row store
writes the chosen status onto the selected row. -/
theorem claim_C4_amended_witness :
    (update_booking_status [sampleBooking] "SL-20250101-001" "cancelled")[0]?
      = some { sampleBooking with status := "cancelled" } :=
  (claim_C4_amended (fun _ => none) [sampleBooking] "" "SL-20250101-001"
    "cancelled").2.2 0 sampleBooking (by decide) (by decide)

/-- C5: when the provider create-payment call fails (network error or HTTP
status ≥ 400, i.e. `create_payment_intent` returns `None`), the submitted
booking is still appended and persisted, with status `pending`,
`payment_intent_id = ""`, `payment_status = "error"` and `redirect_url = ""`. -/
theorem claim_C5_failed_create (df : List Booking)
    (today created_at name phone : String) (tickets : Nat) (notes : String)
    (out : HttpOutcome) (hfail : create_payment_intent out = none) :
    ∃ r : Booking,
      submit_booking today created_at name phone tickets notes
          (create_payment_intent out) df = df ++ [r] ∧
      r.status = "pending" ∧ r.payment_intent_id = "" ∧
      r.payment_status = some "error" ∧ r.redirect_url = "" := by
  rw [hfail]
  exact ⟨_, rfl, rfl, rfl, rfl, rfl⟩

/-- Witness for C5 at a concrete simulated network error. -/
theorem claim_C5_failed_create_witness :
    ∃ r : Booking,
      submit_booking "20250101" "2025-01-01 10:00:00" "Aisha" "0500000000" 2 ""
          (create_payment_intent .netError) [] = [] ++ [r] ∧
      r.status = "pending" ∧ r.payment_intent_id = "" ∧
      r.payment_status = some "error" ∧ r.redirect_url = "" :=
  claim_C5_failed_create [] "20250101" "2025-01-01 10:00:00" "Aisha"
    "0500000000" 2 "" .netError (by decide)

/-- C6: every booking created via the form stores
`total_amount = tickets * TICKET_PRICE` with the fixed `TICKET_PRICE = 175`
recorded as the row's `ticket_price`; in particular 2 tickets store 350. -/
theorem claim_C6_total_amount (df : List Booking)
    (today created_at name phone : String) (tickets : Nat) (notes : String)
    (pi_json : Option PIJson) :
    ∃ r : Booking,
      submit_booking today created_at name phone tickets notes pi_json df
        = df ++ [r] ∧
      r.tickets = tickets ∧ r.ticket_price = TICKET_PRICE ∧ TICKET_PRICE = 175 ∧
      r.total_amount = tickets * TICKET_PRICE ∧
      (tickets = 2 → r.total_amount = 350) := by
  refine ⟨_, rfl, rfl, rfl, rfl, rfl, ?_⟩
  rintro rfl
  rfl

/-- Witness for C6 at a concrete 2-ticket submission. -/
theorem claim_C6_total_amount_witness :
    ∃ r : Booking,
      submit_booking "20250101" "2025-01-01 10:00:00" "Aisha" "0500000000" 2 ""
          none [] = [] ++ [r] ∧
      r.tickets = 2 ∧ r.ticket_price = TICKET_PRICE ∧ TICKET_PRICE = 175 ∧
      r.total_amount = 2 * TICKET_PRICE ∧ (2 = 2 → r.total_amount = 350) :=
  claim_C6_total_amount [] "20250101" "2025-01-01 10:00:00" "Aisha"
    "0500000000" 2 "" none

/-- C7: the single-record reconciliation on payment-result return is
idempotent — running it a second time against the unchanged remote status
reproduces the identical record set and save outcome — and it persists
immediately whenever the fetch succeeds and the row is found, even when
nothing changed semantically. -/
theorem claim_C7_idempotent (fetch : String → Option (Option String))
    (df : List Booking) (pi_id : String) :
    render_payment_result fetch (render_payment_result fetch df pi_id).1 pi_id
      = render_payment_result fetch df pi_id ∧
    (pi_id ≠ "" → ∀ st, fetch pi_id = some st →
      findFirstIdx (fun b => b.payment_intent_id = pi_id) df ≠ none →
      (render_payment_result fetch df pi_id).2 = true) := by
  constructor
  · by_cases hemp : pi_id = ""
    · simp [render_payment_result, hemp]
    · cases hf : fetch pi_id with
      | none => simp [render_payment_result, hemp, hf]
      | some st =>
        cases hidx : findFirstIdx (fun b => b.payment_intent_id = pi_id) df with
        | none => simp [render_payment_result, hemp, hf, hidx]
        | some i =>
          have hstable : findFirstIdx (fun b => b.payment_intent_id = pi_id)
              (updateAt i (fun b => syncOneCore b st) df)
              = findFirstIdx (fun b => b.payment_intent_id = pi_id) df :=
            findFirstIdx_congr _ _ (fun b => by simp [syncOneCore_pi]) df i
          have hidem : updateAt i (fun b => syncOneCore b st)
              (updateAt i (fun b => syncOneCore b st) df)
              = updateAt i (fun b => syncOneCore b st) df :=
            updateAt_updateAt _ (fun b => syncOneCore_idem b st) df i
          simp [render_payment_result, hemp, hf, hidx, hstable, hidem]
  · intro hemp st hf hfound
    cases hidx : findFirstIdx (fun b => b.payment_intent_id = pi_id) df with
    | none => exact absurd hidx hfound
    | some i => simp [render_payment_result, hemp, hf, hidx]

/-- Witness for C7: a concrete return-redirect reconciliation saves the store. -/
theorem claim_C7_idempotent_witness :
    (render_payment_result (fun _ => some (some "completed")) [sampleBooking]
      "pi_1").2 = true :=
  (claim_C7_idempotent (fun _ => some (some "completed")) [sampleBooking]
    "pi_1").2 (by decide) (some "completed") rfl (by decide)

/-- C8: when the backing bookings file does not exist, `load_bookings`
creates an empty store with the defined column set and returns the empty,
correctly-columned record set without raising. -/
theorem claim_C8_load_missing :
    load_bookings .missing
      = (Except.ok ⟨BOOKING_COLUMNS, []⟩, .table ⟨BOOKING_COLUMNS, []⟩) := rfl

/-- C9 counterexample: with an existing-but-corrupt backing file,
`load_bookings` surfaces the reader's exception — it does not return an
empty-store fallback. -/
theorem claim_C9_counterexample :
    (load_bookings .corrupt).1 = Except.error "read error" ∧
    (load_bookings .corrupt).1 ≠ Except.ok ⟨BOOKING_COLUMNS, []⟩ :=
  ⟨rfl, fun h => Except.noConfusion h⟩

/-- C9 amended: when the backing file exists but is unreadable/corrupt,
`ensure_data_file` leaves it in place (the store is NOT recreated) and
`load_bookings` propagates the underlying read exception unhandled — there is
neither an empty-store fallback nor a dedicated `StorageError`. -/
theorem claim_C9_amended :
    ensure_data_file .corrupt = .corrupt ∧
    load_bookings .corrupt = (Except.error "read error", .corrupt) :=
  ⟨rfl, rfl⟩

/-- C10: `sync_payments_from_ziina` returns exactly the same rows in the same
order — no row added or removed — and only the `status` and `payment_status`
fields of a row may differ; every other field of every row is unchanged. -/
theorem claim_C10_sync_frame (fetch : String → Option (Option String))
    (df : List Booking) :
    (sync_payments_from_ziina fetch df).1.length = df.length ∧
    ∀ i : Nat, sameFrame df[i]? ((sync_payments_from_ziina fetch df).1)[i]? := by
  have hz : has_ziina_configured = true := by decide
  rw [sync_payments_from_ziina, if_pos hz, syncList_fst]
  constructor
  · simp
  · intro i
    rw [List.getElem?_map]
    cases h : df[i]? with
    | none => exact trivial
    | some b => exact syncRow_frame fetch b

end SnowLiwa
